/-
Verification of the survival-analysis tutorial notebooks
(PyDataNY 2019 tutorial): a Weibull-type hazard model, its
log-likelihood under right censoring, and the Delta-method variance of
the survival function.

The notebooks' numeric code is embedded shallowly over ℝ:
`numpy` arrays of lifetimes and censoring indicators become `List ℝ`,
`x ** y` becomes `Real.rpow`, `np.log`/`np.exp` become
`Real.log`/`Real.exp`, and `autograd`'s exact derivatives
(`grad`, `elementwise_grad`, `hessian`) become Mathlib's `deriv`
applied coordinatewise.

Three notebooks define the model:
  * `Part2`  — hand-derived hazard: tutorial_notebooks/Part 2.ipynb
  * `Part3`  — closed-form log-hazard: the unnamed autodiff notebook
  * `Part6`  — autodiff hazard and Delta method: full_notebooks/Part 6.ipynb
-/

import Mathlib

noncomputable section

namespace Part2

/-- `cumulative_hazard(params, t) = (t / lambda_) ** rho_` from Part 2. -/
def cumulative_hazard (params : ℝ × ℝ) (t : ℝ) : ℝ :=
  (t / params.1) ^ params.2

/-- `hazard(params, t) = rho_ / lambda_ * (t / lambda_) ** (rho_ - 1)`,
the hand-derived derivative of the cumulative hazard, from Part 2. -/
def hazard (params : ℝ × ℝ) (t : ℝ) : ℝ :=
  params.2 / params.1 * (t / params.1) ^ (params.2 - 1)

/-- `log_hazard(params, t) = np.log(hazard(params, t))` from Part 2. -/
def log_hazard (params : ℝ × ℝ) (t : ℝ) : ℝ :=
  Real.log (hazard params t)

/-- `log_likelihood(params, t, e) = np.sum(e * log_hazard(params, t)) -
np.sum(cumulative_hazard(params, t))` from Part 2; the arrays `t` and `e`
are lists and the elementwise product is a `zipWith`. -/
def log_likelihood (params : ℝ × ℝ) (t e : List ℝ) : ℝ :=
  (List.zipWith (fun ei ti => ei * log_hazard params ti) e t).sum -
    (t.map (cumulative_hazard params)).sum

/-- `negative_log_likelihood(params, t, e) = -log_likelihood(params, t, e)`
from Part 2. -/
def negative_log_likelihood (params : ℝ × ℝ) (t e : List ℝ) : ℝ :=
  -log_likelihood params t e

end Part2

namespace Part3

/-- `cumulative_hazard(params, t) = (t / lambda_) ** rho_` from the
unnamed autodiff notebook (Part 3). -/
def cumulative_hazard (params : ℝ × ℝ) (t : ℝ) : ℝ :=
  (t / params.1) ^ params.2

/-- `log_hazard(params, t) = np.log(rho_) - np.log(lambda_) +
(rho_ - 1) * (np.log(t) - np.log(lambda_))`, the closed form from the
unnamed autodiff notebook (Part 3). -/
def log_hazard (params : ℝ × ℝ) (t : ℝ) : ℝ :=
  Real.log params.2 - Real.log params.1 +
    (params.2 - 1) * (Real.log t - Real.log params.1)

/-- `log_likelihood(params, t, e)` from the unnamed autodiff notebook. -/
def log_likelihood (params : ℝ × ℝ) (t e : List ℝ) : ℝ :=
  (List.zipWith (fun ei ti => ei * log_hazard params ti) e t).sum -
    (t.map (cumulative_hazard params)).sum

/-- `negative_log_likelihood(params, t, e)` from the unnamed autodiff
notebook. -/
def negative_log_likelihood (params : ℝ × ℝ) (t e : List ℝ) : ℝ :=
  -log_likelihood params t e

end Part3

/-- Partial gradient with respect to the two-element parameter vector:
the embedding of `autograd.grad(f)` (argnum 0) for a function of
`params = (lambda_, rho_)`. Component `0` differentiates in `lambda_`,
component `1` in `rho_`. -/
def pgrad (f : ℝ × ℝ → ℝ) (p : ℝ × ℝ) : Fin 2 → ℝ := fun i =>
  if i = 0 then deriv (fun x => f (x, p.2)) p.1
  else deriv (fun y => f (p.1, y)) p.2

/-- The Hessian of a function of the two-element parameter vector:
the embedding of `autograd.hessian(f)` — the matrix of second partial
derivatives. -/
def phess (f : ℝ × ℝ → ℝ) (p : ℝ × ℝ) : Matrix (Fin 2) (Fin 2) ℝ :=
  Matrix.of fun i j => pgrad (fun q => pgrad f q j) p i

namespace Part6

/-- `cumulative_hazard(params, t) = (t / lambda_) ** rho_` from Part 6. -/
def cumulative_hazard (params : ℝ × ℝ) (t : ℝ) : ℝ :=
  (t / params.1) ^ params.2

/-- `hazard = elementwise_grad(cumulative_hazard, argnum=1)` from Part 6:
the exact pointwise derivative of the cumulative hazard in `t`. -/
def hazard (params : ℝ × ℝ) (t : ℝ) : ℝ :=
  deriv (fun s => cumulative_hazard params s) t

/-- `log_hazard(params, t) = np.log(hazard(params, t))` from Part 6. -/
def log_hazard (params : ℝ × ℝ) (t : ℝ) : ℝ :=
  Real.log (hazard params t)

/-- `log_likelihood(params, t, e)` from Part 6. -/
def log_likelihood (params : ℝ × ℝ) (t e : List ℝ) : ℝ :=
  (List.zipWith (fun ei ti => ei * log_hazard params ti) e t).sum -
    (t.map (cumulative_hazard params)).sum

/-- `negative_log_likelihood(params, t, e)` from Part 6. -/
def negative_log_likelihood (params : ℝ × ℝ) (t e : List ℝ) : ℝ :=
  -log_likelihood params t e

/-- `survival_function(params, t) = np.exp(-cumulative_hazard(params, t))`
from Part 6. -/
def survival_function (params : ℝ × ℝ) (t : ℝ) : ℝ :=
  Real.exp (-cumulative_hazard params t)

/-- `grad_sf = grad(survival_function)` from Part 6: the exact gradient of
the survival function with respect to the parameter vector. -/
def grad_sf (params : ℝ × ℝ) (t : ℝ) : Fin 2 → ℝ :=
  pgrad (fun p => survival_function p t) params

/-- `variance_matrix_ = np.linalg.inv(hessian(negative_log_likelihood)
(estimates_, T, E))` from Part 6: the inverse of the Hessian of the
negative log-likelihood at the fitted parameters. -/
def variance_matrix_ (estimates : ℝ × ℝ) (ts es : List ℝ) :
    Matrix (Fin 2) (Fin 2) ℝ :=
  (phess (fun p => negative_log_likelihood p ts es) estimates)⁻¹

/-- `variance_at_t(t) = grad_sf(estimates_, t) @ variance_matrix_ @
grad_sf(estimates_, t)` from Part 6; numpy's `v @ M @ v` is the
row-vector/matrix product followed by a dot product. -/
def variance_at_t (estimates : ℝ × ℝ) (ts es : List ℝ) (t : ℝ) : ℝ :=
  Matrix.dotProduct
    (Matrix.vecMul (grad_sf estimates t) (variance_matrix_ estimates ts es))
    (grad_sf estimates t)

end Part6

/-- The Delta method as the spec states it:
`Var(f(θ)) ≈ grad(f)(θ) · Var(θ) · grad(f)(θ)^T`, written out as the
quadratic form `Σ i Σ j, grad i * V i j * grad j` of the covariance
matrix `V` at the gradient of `f` in the parameters. -/
def delta_method_variance (f : ℝ × ℝ → ℝ → ℝ) (θ : ℝ × ℝ)
    (V : Matrix (Fin 2) (Fin 2) ℝ) (t : ℝ) : ℝ :=
  Finset.univ.sum fun i : Fin 2 =>
    Finset.univ.sum fun j : Fin 2 =>
      pgrad (fun p => f p t) θ i * V i j * pgrad (fun p => f p t) θ j

/-- The first sum of the log-likelihood restricted to the observed
subjects, as the spec describes it: `log_hazard` is summed over exactly
the indices whose censoring indicator equals `1`. -/
def observed_log_hazard_sum (params : ℝ × ℝ) (t e : List ℝ) : ℝ :=
  (List.zipWith
    (fun ei ti => if ei = (1:ℝ) then Part2.log_hazard params ti else 0)
    e t).sum

/-- Python's destructuring `lambda_, rho_ = params` of a sequence:
succeeds exactly on two-element lists. -/
def destructure2 : List ℝ → Option (ℝ × ℝ)
  | [a, b] => some (a, b)
  | _ => none

/-- `cumulative_hazard` applied to a raw parameter list: the
destructuring step is explicit, so a list of the wrong length fails. -/
def cumulative_hazardL (ps : List ℝ) (t : ℝ) : Option ℝ :=
  (destructure2 ps).map fun p => Part2.cumulative_hazard p t

/-- `hazard` applied to a raw parameter list. -/
def hazardL (ps : List ℝ) (t : ℝ) : Option ℝ :=
  (destructure2 ps).map fun p => Part2.hazard p t

/-- `log_hazard` applied to a raw parameter list. -/
def log_hazardL (ps : List ℝ) (t : ℝ) : Option ℝ :=
  (destructure2 ps).map fun p => Part2.log_hazard p t

end

/-- The cumulative hazard `(t / lambda_) ** rho_` has derivative
`rho_ / lambda_ * (t / lambda_) ** (rho_ - 1)` in `t`, for positive
scale and positive time. -/
lemma hasDerivAt_cumulative_hazard (lam rho t : ℝ) (hl : 0 < lam)
    (ht : 0 < t) :
    HasDerivAt (fun s => Part2.cumulative_hazard (lam, rho) s)
      (rho / lam * (t / lam) ^ (rho - 1)) t := by
  have hd : HasDerivAt (fun s : ℝ => s / lam) (1 / lam) t :=
    (hasDerivAt_id t).div_const lam
  have htl : t / lam ≠ 0 := ne_of_gt (by positivity)
  have h2 := hd.rpow_const (p := rho) (Or.inl htl)
  have hco : rho / lam * (t / lam) ^ (rho - 1) =
      1 / lam * rho * (t / lam) ^ (rho - 1) := by ring
  rw [hco]
  exact h2

/-- C1: for positive scale, shape and time, the hand-derived closed-form
hazard of Part 2 is exactly the derivative of the cumulative hazard with
respect to `t`, and therefore agrees with Part 6's autodiff hazard
`elementwise_grad(cumulative_hazard, argnum=1)`. -/
theorem hazard_eq_deriv_cumulative_hazard (lam rho t : ℝ) (hl : 0 < lam)
    (hr : 0 < rho) (ht : 0 < t) :
    deriv (fun s => Part2.cumulative_hazard (lam, rho) s) t =
      Part2.hazard (lam, rho) t ∧
    Part6.hazard (lam, rho) t = Part2.hazard (lam, rho) t := by
  have h := (hasDerivAt_cumulative_hazard lam rho t hl ht).deriv
  exact ⟨h, h⟩

/-- C1 witness at `lambda_ = 1`, `rho_ = 2`, `t = 3`. -/
theorem hazard_eq_deriv_cumulative_hazard_witness :
    (0:ℝ) < 1 ∧ (0:ℝ) < 2 ∧ (0:ℝ) < 3 ∧
    (deriv (fun s => Part2.cumulative_hazard (1, 2) s) 3 =
      Part2.hazard (1, 2) 3 ∧
     Part6.hazard (1, 2) 3 = Part2.hazard (1, 2) 3) :=
  ⟨by norm_num, by norm_num, by norm_num,
    hazard_eq_deriv_cumulative_hazard 1 2 3 (by norm_num) (by norm_num)
      (by norm_num)⟩

/-- C5: for positive parameters and nonnegative time, the negative log of
the survival function `exp(-cumulative_hazard)` is the cumulative
hazard. -/
theorem neg_log_survival_eq_cumulative_hazard (lam rho t : ℝ)
    (hl : 0 < lam) (hr : 0 < rho) (ht : 0 ≤ t) :
    -Real.log (Part6.survival_function (lam, rho) t) =
      Part6.cumulative_hazard (lam, rho) t := by
  unfold Part6.survival_function
  rw [Real.log_exp]
  ring

/-- C5 witness at `lambda_ = 2`, `rho_ = 3`, `t = 5`. -/
theorem neg_log_survival_eq_cumulative_hazard_witness :
    (0:ℝ) < 2 ∧ (0:ℝ) < 3 ∧ (0:ℝ) ≤ 5 ∧
    -Real.log (Part6.survival_function (2, 3) 5) =
      Part6.cumulative_hazard (2, 3) 5 :=
  ⟨by norm_num, by norm_num, by norm_num,
    neg_log_survival_eq_cumulative_hazard 2 3 5 (by norm_num) (by norm_num)
      (by norm_num)⟩

/-- C9: for positive scale, shape and time, both the cumulative hazard
and the hazard are strictly positive, so `log_hazard` applies `log` to a
positive argument. -/
theorem cumulative_hazard_and_hazard_pos (lam rho t : ℝ) (hl : 0 < lam)
    (hr : 0 < rho) (ht : 0 < t) :
    0 < Part2.cumulative_hazard (lam, rho) t ∧
    0 < Part2.hazard (lam, rho) t := by
  constructor
  · unfold Part2.cumulative_hazard
    exact Real.rpow_pos_of_pos (by positivity) _
  · unfold Part2.hazard
    have h1 : (0:ℝ) < rho / lam := by positivity
    have h2 : (0:ℝ) < (t / lam) ^ (rho - 1) :=
      Real.rpow_pos_of_pos (by positivity) _
    positivity

/-- C9 witness at `lambda_ = 2`, `rho_ = 3`, `t = 5`. -/
theorem cumulative_hazard_and_hazard_pos_witness :
    (0:ℝ) < 2 ∧ (0:ℝ) < 3 ∧ (0:ℝ) < 5 ∧
    (0 < Part2.cumulative_hazard (2, 3) 5 ∧ 0 < Part2.hazard (2, 3) 5) :=
  ⟨by norm_num, by norm_num, by norm_num,
    cumulative_hazard_and_hazard_pos 2 3 5 (by norm_num) (by norm_num)
      (by norm_num)⟩

/-- C4: at `t = 0` with shape `rho_ > 1`, the hazard evaluates to `0`, so
`log_hazard` takes the log of a non-positive number (the notebook's
`-inf`), and a log-likelihood over a dataset containing that subject as
observed hits the same log-of-non-positive branch. -/
theorem log_hazard_log_of_nonpositive_at_zero (lam rho : ℝ) (hl : 0 < lam)
    (hr : 1 < rho) :
    Part2.hazard (lam, rho) 0 = 0 ∧
    Part2.log_hazard (lam, rho) 0 = Real.log 0 ∧
    Part2.log_likelihood (lam, rho) [0] [1] = Real.log 0 := by
  have hz : Part2.hazard (lam, rho) 0 = 0 := by
    unfold Part2.hazard
    rw [zero_div, Real.zero_rpow (by linarith), mul_zero]
  have hc : Part2.cumulative_hazard (lam, rho) 0 = 0 := by
    unfold Part2.cumulative_hazard
    rw [zero_div, Real.zero_rpow (by linarith)]
  refine ⟨hz, ?_, ?_⟩
  · unfold Part2.log_hazard
    rw [hz]
  · unfold Part2.log_likelihood
    simp [Part2.log_hazard, hz, hc]

/-- C4 witness at `lambda_ = 1`, `rho_ = 2`. -/
theorem log_hazard_log_of_nonpositive_at_zero_witness :
    (0:ℝ) < 1 ∧ (1:ℝ) < 2 ∧
    (Part2.hazard (1, 2) 0 = 0 ∧
     Part2.log_hazard (1, 2) 0 = Real.log 0 ∧
     Part2.log_likelihood (1, 2) [0] [1] = Real.log 0) :=
  ⟨by norm_num, by norm_num,
    log_hazard_log_of_nonpositive_at_zero 1 2 (by norm_num) (by norm_num)⟩

/-- C10: for a fixed positive parameter pair the cumulative hazard is
strictly increasing on `t > 0`, so the survival function is strictly
decreasing there, takes values in `(0, 1]`, and equals `1` at `t = 0`. -/
theorem cumulative_hazard_strictMono_survival_antitone (lam rho : ℝ)
    (hl : 0 < lam) (hr : 0 < rho) :
    (∀ t1 t2 : ℝ, 0 < t1 → t1 < t2 →
      Part2.cumulative_hazard (lam, rho) t1 <
        Part2.cumulative_hazard (lam, rho) t2) ∧
    (∀ t1 t2 : ℝ, 0 < t1 → t1 < t2 →
      Part6.survival_function (lam, rho) t2 <
        Part6.survival_function (lam, rho) t1) ∧
    (∀ t : ℝ, 0 < t → 0 < Part6.survival_function (lam, rho) t ∧
      Part6.survival_function (lam, rho) t ≤ 1) ∧
    Part6.survival_function (lam, rho) 0 = 1 := by
  have hmono : ∀ t1 t2 : ℝ, 0 < t1 → t1 < t2 →
      Part2.cumulative_hazard (lam, rho) t1 <
        Part2.cumulative_hazard (lam, rho) t2 := by
    intro t1 t2 h1 h12
    unfold Part2.cumulative_hazard
    have hdiv : t1 / lam < t2 / lam := by gcongr
    exact Real.rpow_lt_rpow (by positivity) hdiv hr
  refine ⟨hmono, ?_, ?_, ?_⟩
  · intro t1 t2 h1 h12
    have h := hmono t1 t2 h1 h12
    unfold Part6.survival_function
    rw [Real.exp_lt_exp, neg_lt_neg_iff]
    exact h
  · intro t h
    refine ⟨Real.exp_pos _, ?_⟩
    unfold Part6.survival_function
    rw [Real.exp_le_one_iff, neg_nonpos]
    unfold Part6.cumulative_hazard
    exact Real.rpow_nonneg (by positivity) _
  · unfold Part6.survival_function Part6.cumulative_hazard
    rw [zero_div, Real.zero_rpow (ne_of_gt hr), neg_zero, Real.exp_zero]

/-- C10 witness at `lambda_ = 2`, `rho_ = 3`, times `1 < 4`. -/
theorem cumulative_hazard_strictMono_survival_antitone_witness :
    (0:ℝ) < 2 ∧ (0:ℝ) < 3 ∧
    ((0:ℝ) < 1 ∧ (1:ℝ) < 4 ∧
      Part2.cumulative_hazard (2, 3) 1 < Part2.cumulative_hazard (2, 3) 4 ∧
      Part6.survival_function (2, 3) 4 < Part6.survival_function (2, 3) 1 ∧
      (0 < Part6.survival_function (2, 3) 1 ∧
        Part6.survival_function (2, 3) 1 ≤ 1) ∧
      Part6.survival_function (2, 3) 0 = 1) := by
  have h := cumulative_hazard_strictMono_survival_antitone 2 3 (by norm_num)
    (by norm_num)
  exact ⟨by norm_num, by norm_num, by norm_num, by norm_num,
    h.1 1 4 (by norm_num) (by norm_num),
    h.2.1 1 4 (by norm_num) (by norm_num),
    h.2.2.1 1 (by norm_num), h.2.2.2⟩

/-- C8: for positive scale, shape and time, the three notebooks' log
hazards coincide: the closed form of the autodiff notebook equals Part
2's log of the hand-derived hazard, which equals Part 6's log of the
autodiff-derived hazard. -/
theorem log_hazard_implementations_coincide (lam rho t : ℝ)
    (hl : 0 < lam) (hr : 0 < rho) (ht : 0 < t) :
    Part3.log_hazard (lam, rho) t = Part2.log_hazard (lam, rho) t ∧
    Part2.log_hazard (lam, rho) t = Part6.log_hazard (lam, rho) t := by
  have hder6 : deriv (fun s => Part6.cumulative_hazard (lam, rho) s) t =
      Part2.hazard (lam, rho) t :=
    (hasDerivAt_cumulative_hazard lam rho t hl ht).deriv
  constructor
  · unfold Part3.log_hazard Part2.log_hazard Part2.hazard
    rw [Real.log_mul (by positivity)
        (ne_of_gt (Real.rpow_pos_of_pos (by positivity) _)),
      Real.log_div (ne_of_gt hr) (ne_of_gt hl),
      Real.log_rpow (by positivity),
      Real.log_div (ne_of_gt ht) (ne_of_gt hl)]
  · unfold Part2.log_hazard Part6.log_hazard Part6.hazard
    rw [hder6]

/-- C8 witness at `lambda_ = 2`, `rho_ = 3`, `t = 5`. -/
theorem log_hazard_implementations_coincide_witness :
    (0:ℝ) < 2 ∧ (0:ℝ) < 3 ∧ (0:ℝ) < 5 ∧
    (Part3.log_hazard (2, 3) 5 = Part2.log_hazard (2, 3) 5 ∧
     Part2.log_hazard (2, 3) 5 = Part6.log_hazard (2, 3) 5) :=
  ⟨by norm_num, by norm_num, by norm_num,
    log_hazard_implementations_coincide 2 3 5 (by norm_num) (by norm_num)
      (by norm_num)⟩

/-- Destructuring a parameter list succeeds exactly when it has two
elements. -/
lemma destructure2_isSome (ps : List ℝ) :
    (destructure2 ps).isSome = true ↔ ps.length = 2 := by
  match ps with
  | [] => simp [destructure2]
  | [a] => simp [destructure2]
  | [a, b] => simp [destructure2]
  | a :: b :: c :: rest => simp [destructure2]

/-- C7: each model function applied to a raw parameter list yields a
value exactly when the list has two elements; any other length fails the
`lambda_, rho_ = params` destructuring. -/
theorem model_functions_require_two_params (ps : List ℝ) (t : ℝ) :
    ((cumulative_hazardL ps t).isSome ↔ ps.length = 2) ∧
    ((hazardL ps t).isSome ↔ ps.length = 2) ∧
    ((log_hazardL ps t).isSome ↔ ps.length = 2) := by
  have h := destructure2_isSome ps
  refine ⟨?_, ?_, ?_⟩ <;>
    simpa [cumulative_hazardL, hazardL, log_hazardL] using h

/-- Multiplying each log-hazard term by a 0/1 indicator gives the same
sum as keeping exactly the terms whose indicator is 1. -/
lemma indicator_zip_sum (params : ℝ × ℝ) :
    ∀ (e t : List ℝ), (∀ x ∈ e, x = 0 ∨ x = 1) →
      (List.zipWith (fun ei ti => ei * Part2.log_hazard params ti) e t).sum =
        (List.zipWith
          (fun ei ti => if ei = (1:ℝ) then Part2.log_hazard params ti else 0)
          e t).sum := by
  intro e
  induction e with
  | nil => intro t h; simp
  | cons x xs ih =>
    intro t h
    cases t with
    | nil => simp
    | cons y ys =>
      have hx := h x (by simp)
      have hrest : ∀ z ∈ xs, z = 0 ∨ z = 1 := fun z hz => h z (by simp [hz])
      simp only [List.zipWith_cons_cons, List.sum_cons, ih ys hrest]
      rcases hx with h0 | h1
      · subst h0; rw [zero_mul, if_neg (by norm_num)]
      · subst h1; rw [one_mul, if_pos rfl]

/-- C6: when every censoring indicator is 0 or 1, the log-likelihood is
the sum of `log_hazard` over exactly the observed subjects (indicator 1)
minus the sum of the cumulative hazard over all subjects. -/
theorem log_likelihood_restricts_to_observed (params : ℝ × ℝ)
    (t e : List ℝ) (he : ∀ x ∈ e, x = 0 ∨ x = 1) :
    Part2.log_likelihood params t e =
      observed_log_hazard_sum params t e -
        (t.map (Part2.cumulative_hazard params)).sum := by
  unfold Part2.log_likelihood observed_log_hazard_sum
  rw [indicator_zip_sum params e t he]

/-- C6 witness: lifetimes `[1, 2]`, indicators `[1, 0]`, parameters
`(1, 1)`. -/
theorem log_likelihood_restricts_to_observed_witness :
    (∀ x ∈ ([1, 0] : List ℝ), x = 0 ∨ x = 1) ∧
    Part2.log_likelihood (1, 1) [1, 2] [1, 0] =
      observed_log_hazard_sum (1, 1) [1, 2] [1, 0] -
        (([1, 2] : List ℝ).map (Part2.cumulative_hazard (1, 1))).sum := by
  have h : ∀ x ∈ ([1, 0] : List ℝ), x = 0 ∨ x = 1 := by
    intro x hx
    simp only [List.mem_cons, List.not_mem_nil, or_false] at hx
    rcases hx with h1 | h0
    · exact Or.inr h1
    · exact Or.inl h0
  exact ⟨h, log_likelihood_restricts_to_observed (1, 1) [1, 2] [1, 0] h⟩

/-- The log-likelihood of Part 2 at parameters `(1, 1)`, one lifetime
`1` and its subject censored (`e = [0]`), evaluates to `-1`. -/
lemma part2_log_likelihood_01 : Part2.log_likelihood (1, 1) [1] [0] = -1 := by
  unfold Part2.log_likelihood Part2.log_hazard Part2.hazard
    Part2.cumulative_hazard
  norm_num [Real.one_rpow]

/-- C3 counterexample: the objective handed to the first `minimize` call
of Part 2 is `log_likelihood` itself, which is not pointwise equal to
`negative_log_likelihood`: at parameters `(1, 1)`, lifetimes `[1]` and
indicators `[0]` the two differ (`-1` versus `1`). -/
theorem first_minimize_objective_ne_negative_log_likelihood :
    Part2.log_likelihood (1, 1) [1] [0] ≠
      Part2.negative_log_likelihood (1, 1) [1] [0] := by
  unfold Part2.negative_log_likelihood
  rw [part2_log_likelihood_01]
  norm_num

/-- C3 (amended): the fitting steps that pass
`negative_log_likelihood` to the optimizer (the autodiff notebook's call
and Part 6's call through `value_and_grad`) minimize an objective
pointwise equal to `-log_likelihood`; the first `minimize` call of
Part 2 instead passes `log_likelihood` itself, which differs from the
negative log-likelihood whenever the log-likelihood is nonzero. -/
theorem minimize_objectives_amended (params : ℝ × ℝ) (t e : List ℝ) :
    Part3.negative_log_likelihood params t e =
      -Part3.log_likelihood params t e ∧
    Part6.negative_log_likelihood params t e =
      -Part6.log_likelihood params t e ∧
    (Part2.log_likelihood params t e ≠ 0 →
      Part2.log_likelihood params t e ≠
        Part2.negative_log_likelihood params t e) := by
  refine ⟨rfl, rfl, fun h hc => h ?_⟩
  unfold Part2.negative_log_likelihood at hc
  linarith

/-- C3 (amended) witness at parameters `(1, 1)`, lifetimes `[1]`,
indicators `[0]`. -/
theorem minimize_objectives_amended_witness :
    Part2.log_likelihood (1, 1) [1] [0] ≠ 0 ∧
    Part2.log_likelihood (1, 1) [1] [0] ≠
      Part2.negative_log_likelihood (1, 1) [1] [0] := by
  have hne : Part2.log_likelihood (1, 1) [1] [0] ≠ 0 := by
    rw [part2_log_likelihood_01]; norm_num
  exact ⟨hne, (minimize_objectives_amended (1, 1) [1] [0]).2.2 hne⟩

/-- C2: Part 6's `variance_at_t` is exactly the Delta-method
approximation of the variance of the survival function: the quadratic
form of the parameter covariance matrix (the inverse Hessian of the
negative log-likelihood at the estimates) at the gradient of the
survival function. -/
theorem variance_at_t_eq_delta_method (est : ℝ × ℝ) (ts es : List ℝ)
    (t : ℝ) :
    Part6.variance_at_t est ts es t =
      delta_method_variance Part6.survival_function est
        (Part6.variance_matrix_ est ts es) t := by
  unfold Part6.variance_at_t delta_method_variance Part6.grad_sf
  simp only [Matrix.dotProduct, Matrix.vecMul, Fin.sum_univ_two]
  ring
